import Mathlib

/-!
Shallow embedding of `Scripts/analyze_results.py`: the metrics calculator
(`calculate_metrics`), the history store (`add_to_history`) and the version
comparator (`compare_prompt_versions`), together with proofs of the spec's
claims about them.

Modelling conventions:
* A CSV row (`csv.DictReader` output) is a string-keyed map; a missing column
  means the key is absent.  Each field of `ResultRow` is an `Option`: `none`
  models an absent key.  Fields the script consumes only through
  `parse_float` / `int(...)` are carried as the already-parsed numeric value
  (`Option ℚ` / `Option Nat`), with `none` standing for the
  absent / empty / unparseable cases, for which the script's documented
  default applies (`parse_float` below).  Fields the script consumes as raw
  strings (`status`, the label columns, the boolean-as-string flags and the
  run metadata) are kept as `Option String`.
* Python floats are modelled as exact rationals `ℚ`.
* The ambient clock (`datetime.now().isoformat()`) is passed in explicitly as
  the `now : String` argument; the global `ENTITY_TYPES` configuration is
  passed in as the `entity_types : List String` argument.
-/

set_option allowUnsafeReducibility true in
attribute [semireducible] Rat.add Rat.mul Rat.sub Rat.div Rat.neg Rat.inv

/-- Python `str.lower()`, as a structurally recursive character map (Lean's
`String.toLower` is the same map, but is defined by well-founded recursion
and therefore does not evaluate inside the kernel). -/
def pyLower (s : String) : String := ⟨s.data.map Char.toLower⟩

/-- One evaluation record (one CSV row). -/
structure ResultRow where
  status : Option String
  expected_entity_type : Option String
  actual_entity_type : Option String
  entity_type_correct : Option String
  start_time_presence_correct : Option String
  start_hour_correct : Option String
  end_time_presence_correct : Option String
  recurrence_presence_correct : Option String
  time_preference_presence_correct : Option String
  /-- `start_hour_error`: the parsed value when the cell is present, non-empty
  and all digits (`err and err.isdigit()`); `none` otherwise. -/
  start_hour_error : Option Nat
  title_keyword_overlap : Option ℚ
  confidence : Option ℚ
  confidence_calibrated : Option String
  latency_ms : Option ℚ
  run_id : Option String
  timestamp : Option String
  prompt_version : Option String
  deriving Repr, DecidableEq

/-- The empty dict `{}` used for `results[0] if results else {}`. -/
def emptyRow : ResultRow :=
  ⟨none, none, none, none, none, none, none, none, none, none, none, none,
   none, none, none, none, none⟩

instance : Inhabited ResultRow := ⟨emptyRow⟩

/-- `parse_float(val, default=0.0)` on a field already carried as a parsed
rational: absent / empty / unparseable collapses to the default `0.0`. -/
def parse_float (v : Option ℚ) : ℚ := v.getD 0

/-- `parse_bool(val)`: `val.lower() == "true" if val else False`; an absent key
reaches it as `""`, which also yields `False`. -/
def parse_bool (v : Option String) : Bool := pyLower (v.getD "") == "true"

/-- Default `entity_types` from `load_config`. -/
def ENTITY_TYPES : List String := ["task", "event", "habit", "override", "unknown"]

/-- `r.get("entity_type_correct", "").lower() == "true"`. -/
def entityTypeCorrect (r : ResultRow) : Bool :=
  pyLower (r.entity_type_correct.getD "") == "true"

/-- The completed subset: `[r for r in results if r.get("status") == "COMPLETED"]`. -/
def completedOf (results : List ResultRow) : List ResultRow :=
  results.filter (fun r => r.status = some "COMPLETED")

/-- `len([r for r in results if r.get("status") == "SKIPPED"])`. -/
def skippedCount (results : List ResultRow) : Nat :=
  (results.filter (fun r => r.status = some "SKIPPED")).length

/-- `len([r for r in results if r.get("status") == "ERROR"])`. -/
def errorCount (results : List ResultRow) : Nat :=
  (results.filter (fun r => r.status = some "ERROR")).length

/-- Per-class entry of `entity_metrics[entity_type]`. -/
structure EntityMetrics where
  precision : ℚ
  «recall» : ℚ
  f1 : ℚ
  support : Nat
  predicted_count : Nat
  deriving Repr, DecidableEq

/-- The per-class computation of `calculate_metrics` for one label:
`predicted` / `actual` / `true_positives` and the derived
precision / recall / F1 (0.0 by convention on empty denominators). -/
def entityMetricsFor (completed : List ResultRow) (entity_type : String) :
    EntityMetrics :=
  let predicted := completed.filter
    (fun r => pyLower (r.actual_entity_type.getD "") = entity_type)
  let actual := completed.filter
    (fun r => pyLower (r.expected_entity_type.getD "") = entity_type)
  let true_positives := predicted.filter (fun r => entityTypeCorrect r)
  let precision : ℚ :=
    if predicted.length ≠ 0 then (true_positives.length : ℚ) / predicted.length
    else 0
  let «recall» : ℚ :=
    if actual.length ≠ 0 then (true_positives.length : ℚ) / actual.length
    else 0
  let f1 : ℚ :=
    if precision + «recall» > 0 then
      2 * (precision * «recall») / (precision + «recall»)
    else 0
  { precision := precision, «recall» := «recall», f1 := f1,
    support := actual.length, predicted_count := predicted.length }

/-- Confidence-bin assignment: the chain
`conf < 0.5 / conf < 0.7 / conf < 0.9 / else` mapped to bin indices 0–3. -/
def binIndex (conf : ℚ) : Fin 4 :=
  if conf < 1/2 then 0
  else if conf < 7/10 then 1
  else if conf < 9/10 then 2
  else 3

/-- `confidence_bins[key]["count"]` for the bin with index `i`. -/
def binCount (completed : List ResultRow) (i : Fin 4) : Nat :=
  (completed.filter
    (fun r => binIndex (parse_float r.confidence) = i)).length

/-- `confidence_bins[key]["correct"]` for the bin with index `i`. -/
def binCorrect (completed : List ResultRow) (i : Fin 4) : Nat :=
  (completed.filter
    (fun r => binIndex (parse_float r.confidence) = i ∧ entityTypeCorrect r)).length

/-- The fixed bin midpoints (`expected_conf`), for bins 0–3 in order. -/
def binMidpoint (i : Fin 4) : ℚ :=
  match i with
  | 0 => 1/4
  | 1 => 3/5
  | 2 => 4/5
  | 3 => 19/20

/-- One summand of the ECE loop: bins with `count > 0` contribute
`abs(bin_acc - expected_conf) * (count / n_completed)`. -/
def eceTerm (completed : List ResultRow) (n_completed : Nat) (i : Fin 4) : ℚ :=
  if binCount completed i > 0 then
    |((binCorrect completed i : ℚ) / binCount completed i) - binMidpoint i|
      * ((binCount completed i : ℚ) / n_completed)
  else 0

/-- The expected-calibration-error accumulation over the four bins in
dict-insertion order. -/
def eceOf (completed : List ResultRow) (n_completed : Nat) : ℚ :=
  eceTerm completed n_completed 0 + eceTerm completed n_completed 1
    + eceTerm completed n_completed 2 + eceTerm completed n_completed 3

/-- `latencies = [parse_float(r.get("latency_ms", "0")) for r in completed]`. -/
def latenciesOf (completed : List ResultRow) : List ℚ :=
  completed.map (fun r => parse_float r.latency_ms)

/-- `sorted(latencies)` (ascending; for rational values the sorted list is
determined by the multiset, so any correct sort coincides with Python's). -/
def latenciesSorted (completed : List ResultRow) : List ℚ :=
  (latenciesOf completed).insertionSort (· ≤ ·)

/-- The full metrics document returned by `calculate_metrics` when
`n_completed > 0` (dict keys become structure fields; the sparse
`confusion_matrix` defaultdict becomes its count function). -/
structure MetricsDoc where
  run_id : String
  timestamp : String
  prompt_version : String
  total_tests : Nat
  completed_tests : Nat
  skipped_tests : Nat
  error_tests : Nat
  completion_rate : ℚ
  entity_type_accuracy : ℚ
  entity_type_metrics : List (String × EntityMetrics)
  confusion_matrix : String → String → Nat
  title_keyword_overlap_avg : ℚ
  start_time_presence_accuracy : ℚ
  start_hour_accuracy : ℚ
  avg_hour_error : Option ℚ
  end_time_presence_accuracy : ℚ
  recurrence_presence_accuracy : ℚ
  time_preference_presence_accuracy : ℚ
  avg_confidence : ℚ
  confidence_calibration_rate : ℚ
  confidence_bins : List (Nat × Nat)
  expected_calibration_error : ℚ
  avg_latency_ms : ℚ
  p50_latency_ms : ℚ
  p95_latency_ms : ℚ
  p99_latency_ms : ℚ
  latencies : List ℚ

/-- Result of `calculate_metrics`: either the minimal "no completed tests"
document (counts plus the error marker string) or the full document. -/
inductive MetricsResult where
  | noCompleted (total_tests skipped_tests error_tests : Nat) (error : String)
  | ok (doc : MetricsDoc)

/-- The full-document branch of `calculate_metrics` (`n_completed > 0`). -/
def fullDoc (entity_types : List String) (results : List ResultRow)
    (now : String) : MetricsDoc :=
  let completed := completedOf results
  let total := results.length
  let n_completed := completed.length
  let entity_correct := (completed.filter (fun r => entityTypeCorrect r)).length
  let title_overlaps := completed.map (fun r => parse_float r.title_keyword_overlap)
  let start_time_correct :=
    (completed.filter (fun r => parse_bool r.start_time_presence_correct)).length
  let start_hour_correct :=
    (completed.filter (fun r => parse_bool r.start_hour_correct)).length
  let hour_errors := completed.filterMap (fun r => r.start_hour_error)
  let end_time_correct :=
    (completed.filter (fun r => parse_bool r.end_time_presence_correct)).length
  let recurrence_correct :=
    (completed.filter (fun r => parse_bool r.recurrence_presence_correct)).length
  let time_pref_correct :=
    (completed.filter (fun r => parse_bool r.time_preference_presence_correct)).length
  let confidences := completed.map (fun r => parse_float r.confidence)
  let calibration_correct :=
    (completed.filter (fun r => parse_bool r.confidence_calibrated)).length
  let latencies := latenciesOf completed
  let latencies_sorted := latenciesSorted completed
  let first_result := results.head?.getD emptyRow
  { run_id := first_result.run_id.getD "unknown"
    timestamp := first_result.timestamp.getD now
    prompt_version := first_result.prompt_version.getD "unknown"
    total_tests := total
    completed_tests := n_completed
    skipped_tests := skippedCount results
    error_tests := errorCount results
    completion_rate := if total > 0 then (n_completed : ℚ) / total else 0
    entity_type_accuracy := (entity_correct : ℚ) / n_completed
    entity_type_metrics :=
      entity_types.map (fun t => (t, entityMetricsFor completed t))
    confusion_matrix := fun expected actual =>
      (completed.filter (fun r =>
        pyLower (r.expected_entity_type.getD "unknown") = expected ∧
        pyLower (r.actual_entity_type.getD "unknown") = actual)).length
    title_keyword_overlap_avg := title_overlaps.sum / title_overlaps.length
    start_time_presence_accuracy := (start_time_correct : ℚ) / n_completed
    start_hour_accuracy := (start_hour_correct : ℚ) / n_completed
    avg_hour_error :=
      if hour_errors ≠ [] then
        some (((hour_errors.map (Nat.cast)).sum : ℚ) / hour_errors.length)
      else none
    end_time_presence_accuracy := (end_time_correct : ℚ) / n_completed
    recurrence_presence_accuracy := (recurrence_correct : ℚ) / n_completed
    time_preference_presence_accuracy := (time_pref_correct : ℚ) / n_completed
    avg_confidence := confidences.sum / confidences.length
    confidence_calibration_rate := (calibration_correct : ℚ) / n_completed
    confidence_bins :=
      [(binCount completed 0, binCorrect completed 0),
       (binCount completed 1, binCorrect completed 1),
       (binCount completed 2, binCorrect completed 2),
       (binCount completed 3, binCorrect completed 3)]
    expected_calibration_error := eceOf completed n_completed
    avg_latency_ms := latencies.sum / latencies.length
    p50_latency_ms := latencies_sorted.getD (latencies.length / 2) 0
    p95_latency_ms :=
      latencies_sorted.getD (min (latencies.length * 95 / 100) (latencies.length - 1)) 0
    p99_latency_ms :=
      latencies_sorted.getD (min (latencies.length * 99 / 100) (latencies.length - 1)) 0
    latencies := latencies }

/-- `calculate_metrics(results)`, with the configured label set and the clock
instant made explicit arguments. -/
def calculate_metrics (entity_types : List String) (results : List ResultRow)
    (now : String) : MetricsResult :=
  if (completedOf results).length = 0 then
    .noCompleted results.length (skippedCount results) (errorCount results)
      "No completed tests to analyze"
  else
    .ok (fullDoc entity_types results now)

/-- One entry of the persisted `metrics_history.json` list, as written by
`add_to_history`: every key is set explicitly; a value is `none` exactly when
`metrics.get(key)` returned Python `None` (the key was absent from the
metrics dict, as in the degenerate no-completed-tests document). -/
structure HistoryRecord where
  run_id : Option String
  timestamp : Option String
  prompt_version : Option String
  total_tests : Option Nat
  completed_tests : Option Nat
  completion_rate : Option ℚ
  entity_type_accuracy : Option ℚ
  title_keyword_overlap_avg : Option ℚ
  start_time_presence_accuracy : Option ℚ
  start_hour_accuracy : Option ℚ
  avg_confidence : Option ℚ
  expected_calibration_error : Option ℚ
  avg_latency_ms : Option ℚ
  p95_latency_ms : Option ℚ
  deriving Repr, DecidableEq

instance : Inhabited HistoryRecord :=
  ⟨{ run_id := none, timestamp := none, prompt_version := none,
     total_tests := none, completed_tests := none, completion_rate := none,
     entity_type_accuracy := none, title_keyword_overlap_avg := none,
     start_time_presence_accuracy := none, start_hour_accuracy := none,
     avg_confidence := none, expected_calibration_error := none,
     avg_latency_ms := none, p95_latency_ms := none }⟩

/-- `metrics.get(key)` on a `MetricsResult`, for each key `add_to_history`
projects out: present on the full document, `None` on the degenerate one
(whose dict has only the four counts and the error marker). -/
def historyRecordOf (metrics : MetricsResult) : HistoryRecord :=
  match metrics with
  | .noCompleted total _skipped _errors _msg =>
      { run_id := none, timestamp := none, prompt_version := none,
        total_tests := some total, completed_tests := some 0,
        completion_rate := none, entity_type_accuracy := none,
        title_keyword_overlap_avg := none,
        start_time_presence_accuracy := none, start_hour_accuracy := none,
        avg_confidence := none, expected_calibration_error := none,
        avg_latency_ms := none, p95_latency_ms := none }
  | .ok d =>
      { run_id := some d.run_id, timestamp := some d.timestamp,
        prompt_version := some d.prompt_version,
        total_tests := some d.total_tests,
        completed_tests := some d.completed_tests,
        completion_rate := some d.completion_rate,
        entity_type_accuracy := some d.entity_type_accuracy,
        title_keyword_overlap_avg := some d.title_keyword_overlap_avg,
        start_time_presence_accuracy := some d.start_time_presence_accuracy,
        start_hour_accuracy := some d.start_hour_accuracy,
        avg_confidence := some d.avg_confidence,
        expected_calibration_error := some d.expected_calibration_error,
        avg_latency_ms := some d.avg_latency_ms,
        p95_latency_ms := some d.p95_latency_ms }

/-- `add_to_history(metrics)`, with the load / persist effect made explicit:
takes the loaded history, returns the persisted history together with the
appended-or-not outcome (`True` = the record was appended and saved,
`False` = the `run_id` was already present and the store is untouched). -/
def add_to_history (metrics : MetricsResult) (history : List HistoryRecord) :
    List HistoryRecord × Bool :=
  let history_record := historyRecordOf metrics
  if history.any (fun h => h.run_id = history_record.run_id) then
    (history, false)
  else
    (history ++ [history_record], true)

/-- The three-way per-metric verdict printed by the comparator
(✅ / ❌ / ➡️). -/
inductive Verdict where
  | improved
  | regressed
  | unchanged
  deriving Repr, DecidableEq

/-- The verdict from `higher_is_better` and the sign of `change`. -/
def verdictOf (higher_is_better : Bool) (change : ℚ) : Verdict :=
  if higher_is_better then
    if change > 0 then .improved else if change < 0 then .regressed
    else .unchanged
  else
    if change < 0 then .improved else if change > 0 then .regressed
    else .unchanged

/-- The comparator's fixed metric list `metrics_to_compare`
(key, projection out of a history record, `higher_is_better`). -/
def metrics_to_compare :
    List (String × (HistoryRecord → Option ℚ) × Bool) :=
  [("entity_type_accuracy", HistoryRecord.entity_type_accuracy, true),
   ("title_keyword_overlap_avg", HistoryRecord.title_keyword_overlap_avg, true),
   ("start_hour_accuracy", HistoryRecord.start_hour_accuracy, true),
   ("expected_calibration_error", HistoryRecord.expected_calibration_error, false),
   ("avg_latency_ms", HistoryRecord.avg_latency_ms, false)]

/-- One row of the comparison table: `val1 = latest_v1.get(key, 0)`,
`val2 = latest_v2.get(key, 0)`.  In a record written by `add_to_history`
every key is present, so `.get` yields the stored value; a stored `None`
(degenerate run) makes the body raise `TypeError` (string-formatting /
arithmetic on `None`), modelled as the error outcome.  On floats the branch
`isinstance(val1, float) and val1 <= 1` scales the change by 100 for
percentage display. -/
def compareMetric (val1 val2 : Option ℚ) (higher_is_better : Bool) :
    Except String (ℚ × Verdict) :=
  match val1, val2 with
  | some x, some y =>
      if x ≤ 1 then
        .ok ((y - x) * 100, verdictOf higher_is_better ((y - x) * 100))
      else
        .ok (y - x, verdictOf higher_is_better (y - x))
  | _, _ => .error "TypeError"

/-- `max(runs, key=lambda x: x.get("timestamp", ""))`: the first record with
the lexicographically maximal timestamp string (Python `max` keeps the
earliest maximal element). -/
def latestRun (first : HistoryRecord) (rest : List HistoryRecord) :
    HistoryRecord :=
  rest.foldl
    (fun acc r =>
      if acc.timestamp.getD "" < r.timestamp.getD "" then r else acc)
    first

/-- The record `compare_prompt_versions` selects for version `v`:
the latest run among the history records whose `prompt_version` equals `v`
(the empty dict stands in when the filter is empty; callers guard on that). -/
def latestFor (history : List HistoryRecord) (v : String) : HistoryRecord :=
  match history.filter (fun h => h.prompt_version = some v) with
  | [] => default
  | first :: rest => latestRun first rest

/-- The comparator's `for key, label, higher_is_better in metrics_to_compare`
loop: one comparison row per metric, aborting on the first raised
`TypeError`. -/
def compareRows (latest_v1 latest_v2 : HistoryRecord) :
    List (String × (HistoryRecord → Option ℚ) × Bool) →
      Except String (List (String × ℚ × Verdict))
  | [] => .ok []
  | m :: ms =>
    match compareMetric (m.2.1 latest_v1) (m.2.1 latest_v2) m.2.2 with
    | .error e => .error e
    | .ok entry =>
      match compareRows latest_v1 latest_v2 ms with
      | .error e => .error e
      | .ok rest => .ok ((m.1, entry) :: rest)

/-- `compare_prompt_versions(v1, v2, history)`: the early `print`-and-return
on an empty filter set is the explicit not-found failure naming the missing
version; on success the result is the list of printed comparison rows
(metric key, computed change, verdict). -/
def compare_prompt_versions (v1 v2 : String) (history : List HistoryRecord) :
    Except String (List (String × ℚ × Verdict)) :=
  let runs_v1 := history.filter (fun h => h.prompt_version = some v1)
  let runs_v2 := history.filter (fun h => h.prompt_version = some v2)
  if runs_v1 = [] then
    .error ("No runs found for prompt version: " ++ v1)
  else if runs_v2 = [] then
    .error ("No runs found for prompt version: " ++ v2)
  else
    compareRows (latestFor history v1) (latestFor history v2)
      metrics_to_compare

/-! ## Shared concrete inputs for witnesses and counterexamples -/

/-- A row constructor fixing the fields most claims do not touch. -/
def mkRow (st exp act corr : Option String) (conf lat : Option ℚ)
    (rid ts pv : Option String) : ResultRow :=
  { status := st, expected_entity_type := exp, actual_entity_type := act,
    entity_type_correct := corr, start_time_presence_correct := none,
    start_hour_correct := none, end_time_presence_correct := none,
    recurrence_presence_correct := none,
    time_preference_presence_correct := none, start_hour_error := none,
    title_keyword_overlap := none, confidence := conf,
    confidence_calibrated := none, latency_ms := lat, run_id := rid,
    timestamp := ts, prompt_version := pv }

/-- A single skipped row (no completed rows at all). -/
def skippedRow : ResultRow :=
  mkRow (some "SKIPPED") none none none none none (some "run-1")
    (some "2024-01-01T00:00:00") (some "v1")

/-! ## C1: idempotent history append -/

/-- Helper: a duplicate `run_id` makes `add_to_history` a no-op. -/
lemma add_to_history_dup (metrics : MetricsResult)
    (history : List HistoryRecord)
    (hdup : ∃ h ∈ history, h.run_id = (historyRecordOf metrics).run_id) :
    add_to_history metrics history = (history, false) := by
  have hany : history.any
      (fun h => h.run_id = (historyRecordOf metrics).run_id) = true := by
    simp only [List.any_eq_true, decide_eq_true_eq]
    exact hdup
  simp [add_to_history, hany]

/-- Helper: a fresh `run_id` makes `add_to_history` append at the tail. -/
lemma add_to_history_new (metrics : MetricsResult)
    (history : List HistoryRecord)
    (hnew : ¬ ∃ h ∈ history, h.run_id = (historyRecordOf metrics).run_id) :
    add_to_history metrics history =
      (history ++ [historyRecordOf metrics], true) := by
  have hany : history.any
      (fun h => h.run_id = (historyRecordOf metrics).run_id) = false := by
    simp only [List.any_eq_false, decide_eq_true_eq]
    intro h hh
    exact fun he => hnew ⟨h, hh, he⟩
  simp [add_to_history, hany]

/-- C1: `add_to_history` keyed on `run_id` is idempotent: a duplicate
`run_id` leaves the store unchanged and reports "not appended"; otherwise
exactly the new record is added at the tail (existing records preserved in
order and content) and the length grows by at most 1. -/
theorem add_to_history_idempotent (metrics : MetricsResult)
    (history : List HistoryRecord) :
    ((∃ h ∈ history, h.run_id = (historyRecordOf metrics).run_id) →
      add_to_history metrics history = (history, false)) ∧
    ((¬ ∃ h ∈ history, h.run_id = (historyRecordOf metrics).run_id) →
      add_to_history metrics history =
        (history ++ [historyRecordOf metrics], true)) ∧
    (add_to_history metrics history).1.length ≤ history.length + 1 := by
  refine ⟨add_to_history_dup metrics history, add_to_history_new metrics history, ?_⟩
  by_cases hdup : ∃ h ∈ history, h.run_id = (historyRecordOf metrics).run_id
  · rw [add_to_history_dup metrics history hdup]
    exact Nat.le_succ_of_le le_rfl
  · rw [add_to_history_new metrics history hdup]
    simp

/-- Witness for C1 at concrete inputs: appending a record to the empty store
adds it; appending the same `run_id` again is a no-op reporting `false`. -/
theorem add_to_history_idempotent_witness :
    add_to_history (.noCompleted 3 2 1 "No completed tests to analyze") []
      = ([historyRecordOf (.noCompleted 3 2 1 "No completed tests to analyze")],
         true) ∧
    add_to_history (.noCompleted 3 2 1 "No completed tests to analyze")
        [historyRecordOf (.noCompleted 3 2 1 "No completed tests to analyze")]
      = ([historyRecordOf (.noCompleted 3 2 1 "No completed tests to analyze")],
         false) := by
  constructor
  · exact (add_to_history_idempotent
      (.noCompleted 3 2 1 "No completed tests to analyze") []).2.1 (by simp)
  · exact (add_to_history_idempotent
      (.noCompleted 3 2 1 "No completed tests to analyze")
      [historyRecordOf (.noCompleted 3 2 1 "No completed tests to analyze")]).1
      ⟨historyRecordOf (.noCompleted 3 2 1 "No completed tests to analyze"),
       List.mem_singleton.mpr rfl, rfl⟩

/-! ## C2: zero completed rows yields the minimal document -/

/-- C2: with zero COMPLETED rows, `calculate_metrics` returns the minimal
document holding only the four counts and the explicit "no completed tests"
marker; no ratio or percentile field exists on that constructor, and no
division is performed. -/
theorem calculate_metrics_no_completed (entity_types : List String)
    (results : List ResultRow) (now : String)
    (h : (completedOf results).length = 0) :
    calculate_metrics entity_types results now =
      .noCompleted results.length (skippedCount results) (errorCount results)
        "No completed tests to analyze" := by
  simp [calculate_metrics, h]

/-- Witness for C2: an input of two skipped rows. -/
theorem calculate_metrics_no_completed_witness :
    (completedOf [skippedRow, skippedRow]).length = 0 ∧
    calculate_metrics ENTITY_TYPES [skippedRow, skippedRow] "2024-01-01"
      = .noCompleted 2 2 0 "No completed tests to analyze" := by
  refine ⟨by decide, ?_⟩
  have := calculate_metrics_no_completed ENTITY_TYPES [skippedRow, skippedRow]
    "2024-01-01" (by decide)
  simpa [skippedCount, errorCount, skippedRow, mkRow] using this

/-! ## C6: comparison of a version with no runs fails -/

/-- C6: if either version's filter set over the history is empty,
`compare_prompt_versions` fails with the not-found signal naming the missing
version and produces no comparison rows. -/
theorem compare_missing_version_fails (v1 v2 : String)
    (history : List HistoryRecord) :
    (history.filter (fun h => h.prompt_version = some v1) = [] →
      compare_prompt_versions v1 v2 history =
        .error ("No runs found for prompt version: " ++ v1)) ∧
    (history.filter (fun h => h.prompt_version = some v1) ≠ [] →
      history.filter (fun h => h.prompt_version = some v2) = [] →
      compare_prompt_versions v1 v2 history =
        .error ("No runs found for prompt version: " ++ v2)) := by
  constructor
  · intro h1
    simp [compare_prompt_versions, h1]
  · intro h1 h2
    simp [compare_prompt_versions, h1, h2]

/-- Witness for C6: the empty history has no runs for version "v9". -/
theorem compare_missing_version_fails_witness :
    ([] : List HistoryRecord).filter (fun h => h.prompt_version = some "v9")
      = [] ∧
    compare_prompt_versions "v9" "v2" [] =
      .error ("No runs found for prompt version: " ++ "v9") := by
  exact ⟨rfl, (compare_missing_version_fails "v9" "v2" []).1 rfl⟩

/-! ## C10: degenerate documents collide on a null run_id -/

/-- C10: the degenerate no-completed-tests document has no `run_id` key, so
`add_to_history` stores a record with a null (`none`) `run_id`; once such a
record is in the store, every further append of a document lacking `run_id`
is detected as a duplicate of it and leaves the store unchanged. -/
theorem add_to_history_null_run_id (total skipped errors : Nat) (msg : String)
    (history : List HistoryRecord)
    (hfresh : ∀ hr ∈ history, hr.run_id ≠ none) :
    (historyRecordOf (.noCompleted total skipped errors msg)).run_id = none ∧
    add_to_history (.noCompleted total skipped errors msg) history =
      (history ++ [historyRecordOf (.noCompleted total skipped errors msg)],
       true) ∧
    ∀ (t2 s2 e2 : Nat) (m2 : String),
      add_to_history (.noCompleted t2 s2 e2 m2)
          (history ++ [historyRecordOf (.noCompleted total skipped errors msg)])
        = (history ++ [historyRecordOf (.noCompleted total skipped errors msg)],
           false) := by
  refine ⟨rfl, ?_, ?_⟩
  · exact add_to_history_new _ history
      (by
        rintro ⟨hr, hmem, heq⟩
        exact hfresh hr hmem heq)
  · intro t2 s2 e2 m2
    exact add_to_history_dup _ _
      ⟨historyRecordOf (.noCompleted total skipped errors msg), by simp, rfl⟩

/-- Witness for C10 on the empty store. -/
theorem add_to_history_null_run_id_witness :
    (historyRecordOf (.noCompleted 5 5 0 "No completed tests to analyze")).run_id
      = none ∧
    add_to_history (.noCompleted 5 5 0 "No completed tests to analyze") [] =
      ([historyRecordOf (.noCompleted 5 5 0 "No completed tests to analyze")],
       true) ∧
    add_to_history (.noCompleted 7 3 4 "No completed tests to analyze")
        [historyRecordOf (.noCompleted 5 5 0 "No completed tests to analyze")]
      = ([historyRecordOf (.noCompleted 5 5 0 "No completed tests to analyze")],
         false) := by
  have h := add_to_history_null_run_id 5 5 0 "No completed tests to analyze" []
    (by simp)
  exact ⟨h.1, by simpa using h.2.1, by simpa using h.2.2 7 3 4 _⟩

/-! ## C8: determinism of `calculate_metrics` -/

/-- The `timestamp` entry of a metrics result (the degenerate document has
none; its projection is `""` here). -/
def resultTimestamp : MetricsResult → String
  | .noCompleted _ _ _ _ => ""
  | .ok d => d.timestamp

/-- A completed row with no `timestamp` column. -/
def clockRow : ResultRow :=
  mkRow (some "COMPLETED") none none none none none none none none

/-- Counterexample to C8: with a first row lacking `timestamp`,
`calculate_metrics` copies the current clock instant into the document, so
two invocations at different instants return different documents. -/
theorem calculate_metrics_clock_dependent :
    calculate_metrics ENTITY_TYPES [clockRow] "2024-01-01T00:00:00"
      ≠ calculate_metrics ENTITY_TYPES [clockRow] "2024-01-02T00:00:00" := by
  intro h
  have h1 : resultTimestamp
      (calculate_metrics ENTITY_TYPES [clockRow] "2024-01-01T00:00:00")
      = "2024-01-01T00:00:00" := rfl
  have h2 : resultTimestamp
      (calculate_metrics ENTITY_TYPES [clockRow] "2024-01-02T00:00:00")
      = "2024-01-02T00:00:00" := rfl
  rw [h] at h1
  exact absurd (h1.symm.trans h2) (by decide)

/-- C8 (amended): `calculate_metrics` is deterministic as a function of its
inputs together with the clock instant; it is independent of the instant
whenever the first row carries a `timestamp` (or no row completed), and the
run metadata is taken from the first row of the entire input with the
documented defaults. -/
theorem calculate_metrics_deterministic (entity_types : List String)
    (results : List ResultRow) (now1 now2 : String)
    (h : (results.head?.getD emptyRow).timestamp ≠ none ∨
         (completedOf results).length = 0) :
    calculate_metrics entity_types results now1 =
      calculate_metrics entity_types results now2 ∧
    ∀ (now : String) (d : MetricsDoc),
      calculate_metrics entity_types results now = .ok d →
      d.run_id = (results.head?.getD emptyRow).run_id.getD "unknown" ∧
      d.timestamp = (results.head?.getD emptyRow).timestamp.getD now ∧
      d.prompt_version =
        (results.head?.getD emptyRow).prompt_version.getD "unknown" := by
  constructor
  · by_cases hz : (completedOf results).length = 0
    · simp [calculate_metrics, hz]
    · have ht : (results.head?.getD emptyRow).timestamp ≠ none :=
        h.resolve_right hz
      obtain ⟨t, ht⟩ := Option.ne_none_iff_exists'.mp ht
      simp only [calculate_metrics, if_neg hz]
      congr 1
      simp only [fullDoc]
      rw [ht]
      simp only [Option.getD_some]
  · intro now d hd
    by_cases hz : (completedOf results).length = 0
    · simp [calculate_metrics, hz] at hd
    · simp only [calculate_metrics, if_neg hz, MetricsResult.ok.injEq] at hd
      subst hd
      exact ⟨rfl, rfl, rfl⟩

/-- A completed row that does carry run metadata. -/
def metaRow : ResultRow :=
  mkRow (some "COMPLETED") (some "task") (some "task") (some "true")
    (some (9/10)) (some 120) (some "run-7") (some "2024-03-01T10:00:00")
    (some "v3")

/-- Witness for C8 (amended): on a first row carrying a timestamp, the two
invocations at distinct instants agree. -/
theorem calculate_metrics_deterministic_witness :
    (((([metaRow] : List ResultRow).head?.getD emptyRow).timestamp ≠ none) ∨
      (completedOf [metaRow]).length = 0) ∧
    calculate_metrics ENTITY_TYPES [metaRow] "2024-01-01T00:00:00"
      = calculate_metrics ENTITY_TYPES [metaRow] "2024-01-02T00:00:00" := by
  refine ⟨by decide, ?_⟩
  exact (calculate_metrics_deterministic ENTITY_TYPES [metaRow]
    "2024-01-01T00:00:00" "2024-01-02T00:00:00" (by decide)).1

/-! ## C4: ECE with fixed bin midpoints -/

/-- The `expected_calibration_error` entry of a metrics result. -/
def resultECE : MetricsResult → ℚ
  | .noCompleted _ _ _ _ => 0
  | .ok d => d.expected_calibration_error

/-- The `confidence_bins` entry of a metrics result, as (count, correct)
pairs for the four bins in order. -/
def resultBins : MetricsResult → List (Nat × Nat)
  | .noCompleted _ _ _ _ => []
  | .ok d => d.confidence_bins

/-- The C4 scenario: completed rows with confidences
0.2, 0.6, 0.85, 0.95 and correctness false, true, true, true. -/
def c4rows : List ResultRow :=
  [mkRow (some "COMPLETED") none none (some "false") (some (1/5)) none
     none none none,
   mkRow (some "COMPLETED") none none (some "true") (some (3/5)) none
     none none none,
   mkRow (some "COMPLETED") none none (some "true") (some (17/20)) none
     none none none,
   mkRow (some "COMPLETED") none none (some "true") (some (19/20)) none
     none none none]

/-- C4: the expected calibration error is the sum over the bins with nonzero
count of `|binAccuracy - binMidpoint| * (binCount / n)` with the fixed
midpoints 0.25, 0.6, 0.8, 0.95; on the scenario rows the bin counts are
[1,1,1,1], the correct counts [0,1,1,1] (accuracies [0,1,1,1]) and the
ECE is 0.225 = 9/40. -/
theorem ece_fixed_midpoint_formula :
    (∀ (completed : List ResultRow) (n : Nat),
      eceOf completed n =
        ∑ i : Fin 4,
          (if 0 < binCount completed i then
            |((binCorrect completed i : ℚ) / binCount completed i) -
                binMidpoint i| * ((binCount completed i : ℚ) / n)
          else 0)) ∧
    resultBins (calculate_metrics ENTITY_TYPES c4rows "t")
      = [(1, 0), (1, 1), (1, 1), (1, 1)] ∧
    resultECE (calculate_metrics ENTITY_TYPES c4rows "t") = 9/40 := by
  refine ⟨?_, by decide, by decide⟩
  intro completed n
  simp [eceOf, eceTerm, Fin.sum_univ_four]

/-! ## C9: the confidence bins partition the completed rows -/

/-- Helper: the bin counters of `r :: t` extend those of `t` by the one bin
`r` falls into. -/
lemma binCount_cons (r : ResultRow) (t : List ResultRow) (i : Fin 4) :
    binCount (r :: t) i =
      binCount t i +
        (if binIndex (parse_float r.confidence) = i then 1 else 0) := by
  simp only [binCount, List.filter_cons]
  by_cases h : binIndex (parse_float r.confidence) = i
  · simp [h]
  · simp [h]

/-- Helper: comparing two filters when one predicate implies the other. -/
lemma length_filter_le_of_imp {α : Type} (l : List α) (p q : α → Bool)
    (h : ∀ x ∈ l, p x = true → q x = true) :
    (l.filter p).length ≤ (l.filter q).length := by
  induction l with
  | nil => simp
  | cons a t ih =>
    have ht : ∀ x ∈ t, p x = true → q x = true :=
      fun x hx => h x (List.mem_cons_of_mem a hx)
    simp only [List.filter_cons]
    by_cases hp : p a = true
    · have hq := h a (List.mem_cons_self a t) hp
      simp only [hp, hq, if_pos, List.length_cons]
      exact Nat.succ_le_succ (ih ht)
    · by_cases hq : q a = true
      · simp only [hp, hq, if_neg, if_pos, Bool.false_eq_true, if_false,
          List.length_cons]
        exact Nat.le_succ_of_le (ih ht)
      · simp only [hp, hq, Bool.false_eq_true, if_false]
        exact ih ht

/-- C9: bin assignment is a partition of the completed rows — the four bin
counts always sum to the number of completed rows (confidences below 0 land
in the first bin, confidences at or above 0.9, including above 1.0, in the
last), and each bin's correct count never exceeds its count. -/
theorem confidence_bins_partition :
    (∀ completed : List ResultRow,
      binCount completed 0 + binCount completed 1 + binCount completed 2 +
        binCount completed 3 = completed.length) ∧
    (∀ conf : ℚ, conf < 0 → binIndex conf = 0) ∧
    (∀ conf : ℚ, 9/10 ≤ conf → binIndex conf = 3) ∧
    (∀ (completed : List ResultRow) (i : Fin 4),
      binCorrect completed i ≤ binCount completed i) := by
  refine ⟨?_, ?_, ?_, ?_⟩
  · intro completed
    induction completed with
    | nil => rfl
    | cons r t ih =>
      simp only [binCount_cons, List.length_cons]
      have hone : ∀ j : Fin 4,
          ((if j = 0 then 1 else 0) + (if j = 1 then 1 else 0) +
            (if j = 2 then 1 else 0) + (if j = 3 then 1 else 0) : Nat)
            = 1 := by decide
      have := hone (binIndex (parse_float r.confidence))
      omega
  · intro conf hneg
    have h : conf < 1/2 := lt_trans hneg (by norm_num)
    unfold binIndex
    rw [if_pos h]
  · intro conf hge
    have h1 : ¬ conf < 1/2 := not_lt.mpr (le_trans (by norm_num) hge)
    have h2 : ¬ conf < 7/10 := not_lt.mpr (le_trans (by norm_num) hge)
    have h3 : ¬ conf < 9/10 := not_lt.mpr hge
    unfold binIndex
    rw [if_neg h1, if_neg h2, if_neg h3]
  · intro completed i
    unfold binCorrect binCount
    apply length_filter_le_of_imp
    intro r _ hr
    simp only [decide_eq_true_eq] at hr ⊢
    exact hr.1

/-! ## C5: nearest-rank latency percentiles and their monotonicity -/

/-- Helper: `getD` on a `≤`-sorted list is monotone in the index. -/
lemma sorted_getD_mono (l : List ℚ) (hs : l.Sorted (· ≤ ·)) (i j : Nat)
    (hij : i ≤ j) (hj : j < l.length) : l.getD i 0 ≤ l.getD j 0 := by
  have hi : i < l.length := lt_of_le_of_lt hij hj
  rw [List.getD_eq_get l 0 hi, List.getD_eq_get l 0 hj]
  exact hs.rel_get_of_le (Fin.mk_le_mk.mpr hij)

/-- C5: on any input with at least one completed row, the three latency
percentiles are the nearest-rank elements of the ascending-sorted sample at
indices `n/2`, `min(floor(n*0.95), n-1)` and `min(floor(n*0.99), n-1)`, and
they satisfy `p50 ≤ p95 ≤ p99`. -/
theorem latency_percentiles_nearest_rank (entity_types : List String)
    (results : List ResultRow) (now : String) (d : MetricsDoc)
    (h : calculate_metrics entity_types results now = .ok d) :
    d.p50_latency_ms =
      (latenciesSorted (completedOf results)).getD
        ((latenciesOf (completedOf results)).length / 2) 0 ∧
    d.p95_latency_ms =
      (latenciesSorted (completedOf results)).getD
        (min ((latenciesOf (completedOf results)).length * 95 / 100)
          ((latenciesOf (completedOf results)).length - 1)) 0 ∧
    d.p99_latency_ms =
      (latenciesSorted (completedOf results)).getD
        (min ((latenciesOf (completedOf results)).length * 99 / 100)
          ((latenciesOf (completedOf results)).length - 1)) 0 ∧
    d.p50_latency_ms ≤ d.p95_latency_ms ∧
    d.p95_latency_ms ≤ d.p99_latency_ms := by
  by_cases hz : (completedOf results).length = 0
  · simp [calculate_metrics, hz] at h
  · simp only [calculate_metrics, if_neg hz, MetricsResult.ok.injEq] at h
    subst h
    have hnz : (latenciesOf (completedOf results)).length ≠ 0 := by
      unfold latenciesOf
      rw [List.length_map]
      exact hz
    set n := (latenciesOf (completedOf results)).length with hn
    set L := latenciesSorted (completedOf results) with hL
    have hlen : L.length = n := by
      rw [hL, hn]
      exact List.length_insertionSort _ _
    have hsorted : L.Sorted (· ≤ ·) := List.sorted_insertionSort _ _
    have hle1 : n / 2 ≤ min (n * 95 / 100) (n - 1) := by omega
    have hle2 : min (n * 95 / 100) (n - 1) ≤ min (n * 99 / 100) (n - 1) := by
      omega
    have hlt95 : min (n * 95 / 100) (n - 1) < n := by omega
    have hlt99 : min (n * 99 / 100) (n - 1) < n := by omega
    refine ⟨rfl, rfl, rfl, ?_, ?_⟩
    · exact sorted_getD_mono L hsorted _ _ hle1 (hlen ▸ hlt95)
    · exact sorted_getD_mono L hsorted _ _ hle2 (hlen ▸ hlt99)

/-- The latency scenario rows: five completed rows with latencies
10, 20, 30, 40, 50 ms. -/
def c5rows : List ResultRow :=
  [mkRow (some "COMPLETED") none none none none (some 10) none none none,
   mkRow (some "COMPLETED") none none none none (some 20) none none none,
   mkRow (some "COMPLETED") none none none none (some 30) none none none,
   mkRow (some "COMPLETED") none none none none (some 40) none none none,
   mkRow (some "COMPLETED") none none none none (some 50) none none none]

/-- Witness for C5: on latencies [10,20,30,40,50] the document exists and
satisfies the monotone percentile chain (concretely p50 = 30, p95 = p99 = 50). -/
theorem latency_percentiles_nearest_rank_witness :
    calculate_metrics ENTITY_TYPES c5rows "t"
      = .ok (fullDoc ENTITY_TYPES c5rows "t") ∧
    (fullDoc ENTITY_TYPES c5rows "t").p50_latency_ms = 30 ∧
    (fullDoc ENTITY_TYPES c5rows "t").p50_latency_ms
      ≤ (fullDoc ENTITY_TYPES c5rows "t").p95_latency_ms ∧
    (fullDoc ENTITY_TYPES c5rows "t").p95_latency_ms
      ≤ (fullDoc ENTITY_TYPES c5rows "t").p99_latency_ms := by
  have h := latency_percentiles_nearest_rank ENTITY_TYPES c5rows "t"
    (fullDoc ENTITY_TYPES c5rows "t") rfl
  exact ⟨rfl, by decide, h.2.2.2.1, h.2.2.2.2⟩

/-! ## C3: per-class precision / recall / F1 bounds -/

/-- The `entity_type_metrics` entry of a metrics result. -/
def resultEntityMetrics : MetricsResult → List (String × EntityMetrics)
  | .noCompleted _ _ _ _ => []
  | .ok d => d.entity_type_metrics

/-- Rows on which the `entity_type_correct` flag contradicts the label
columns: two rows predicted `task` (expected `event`) are flagged correct,
and one row expects `task`. -/
def c3rows : List ResultRow :=
  [mkRow (some "COMPLETED") (some "event") (some "task") (some "true")
     none none none none none,
   mkRow (some "COMPLETED") (some "event") (some "task") (some "true")
     none none none none none,
   mkRow (some "COMPLETED") (some "task") (some "event") (some "false")
     none none none none none]

/-- Counterexample to C3: on `c3rows` the class `task` from the configured
label set has two true positives but support 1, so its recall is 2 > 1 (and
its F1 is 4/3 > 1): the claimed bounds fail on unrestricted row sequences
because `true_positives` is carved out of `predicted`, not of `actual`. -/
theorem recall_can_exceed_one :
    "task" ∈ ENTITY_TYPES ∧
    ("task", entityMetricsFor (completedOf c3rows) "task") ∈
      resultEntityMetrics (calculate_metrics ENTITY_TYPES c3rows "t") ∧
    (entityMetricsFor (completedOf c3rows) "task").«recall» = 2 ∧
    ¬ (entityMetricsFor (completedOf c3rows) "task").«recall» ≤ 1 := by
  decide

/-- Helper: ratios of the form `count-of-sublist / count` stay in `[0, 1]`. -/
lemma ratio_bounds (a b : Nat) (hab : a ≤ b) :
    0 ≤ (if b ≠ 0 then (a : ℚ) / b else 0) ∧
    (if b ≠ 0 then (a : ℚ) / b else 0) ≤ 1 := by
  by_cases hb : b ≠ 0
  · rw [if_pos hb]
    refine ⟨by positivity, ?_⟩
    rw [div_le_one (by exact_mod_cast Nat.pos_of_ne_zero hb)]
    exact_mod_cast hab
  · rw [if_neg hb]
    norm_num

/-- Helper: the harmonic-mean style F1 stays in `[0, 1]` and vanishes with
`p + r = 0`. -/
lemma f1_bounds (p r : ℚ) (hp0 : 0 ≤ p) (hp1 : p ≤ 1) (hr0 : 0 ≤ r)
    (hr1 : r ≤ 1) :
    0 ≤ (if p + r > 0 then 2 * (p * r) / (p + r) else 0) ∧
    (if p + r > 0 then 2 * (p * r) / (p + r) else 0) ≤ 1 ∧
    (p + r = 0 → (if p + r > 0 then 2 * (p * r) / (p + r) else 0) = 0) := by
  by_cases hpr : p + r > 0
  · rw [if_pos hpr]
    refine ⟨by positivity, ?_, ?_⟩
    · rw [div_le_one hpr]
      nlinarith
    · intro h0
      exact absurd hpr (by simp [h0])
  · rw [if_neg hpr]
    norm_num

/-- C3 (amended): for every row sequence and label, precision lies in
`[0, 1]` unconditionally; whenever the `entity_type_correct` flag is in
addition consistent with the label columns (a completed row flagged correct
has equal lower-cased actual and expected labels), recall and F1 also lie
in `[0, 1]` and F1 is 0 when precision + recall is 0.  (Unrestricted rows
refute the unconditional recall/F1 bounds, see the counterexample.) -/
theorem per_class_metrics_in_unit_interval (completed : List ResultRow)
    (label : String) :
    0 ≤ (entityMetricsFor completed label).precision ∧
    (entityMetricsFor completed label).precision ≤ 1 ∧
    ((∀ r ∈ completed, entityTypeCorrect r = true →
        pyLower (r.actual_entity_type.getD "")
          = pyLower (r.expected_entity_type.getD "")) →
      0 ≤ (entityMetricsFor completed label).«recall» ∧
      (entityMetricsFor completed label).«recall» ≤ 1 ∧
      0 ≤ (entityMetricsFor completed label).f1 ∧
      (entityMetricsFor completed label).f1 ≤ 1 ∧
      ((entityMetricsFor completed label).precision
          + (entityMetricsFor completed label).«recall» = 0 →
        (entityMetricsFor completed label).f1 = 0)) := by
  simp only [entityMetricsFor]
  set P := completed.filter
    (fun r => pyLower (r.actual_entity_type.getD "") = label) with hP
  set A := completed.filter
    (fun r => pyLower (r.expected_entity_type.getD "") = label) with hA
  have hTP_P : (P.filter (fun r => entityTypeCorrect r)).length ≤ P.length :=
    List.length_filter_le _ _
  have hp := ratio_bounds (P.filter (fun r => entityTypeCorrect r)).length
    P.length hTP_P
  refine ⟨hp.1, hp.2, ?_⟩
  intro hcons
  have hTP_A : (P.filter (fun r => entityTypeCorrect r)).length ≤ A.length := by
    rw [hP, List.filter_filter]
    apply length_filter_le_of_imp
    intro r hr hand
    simp only [Bool.and_eq_true, decide_eq_true_eq] at hand
    simp only [decide_eq_true_eq]
    exact (hcons r hr hand.1).symm.trans hand.2
  have hr := ratio_bounds (P.filter (fun r => entityTypeCorrect r)).length
    A.length hTP_A
  have hf := f1_bounds _ _ hp.1 hp.2 hr.1 hr.2
  exact ⟨hr.1, hr.2, hf.1, hf.2.1, hf.2.2⟩

/-- Witness for C3 (amended): the unconditional precision bound holds even
on the inconsistent counterexample rows, and on the scenario rows of C4
(whose correctness flags are consistent with their absent label columns)
the conditional recall bounds follow. -/
theorem per_class_metrics_in_unit_interval_witness :
    (entityMetricsFor (completedOf c3rows) "task").precision ≤ 1 ∧
    (∀ r ∈ completedOf c4rows, entityTypeCorrect r = true →
      pyLower (r.actual_entity_type.getD "")
        = pyLower (r.expected_entity_type.getD "")) ∧
    0 ≤ (entityMetricsFor (completedOf c4rows) "task").«recall» ∧
    (entityMetricsFor (completedOf c4rows) "task").«recall» ≤ 1 := by
  refine ⟨(per_class_metrics_in_unit_interval (completedOf c3rows) "task").2.1,
    by decide, ?_, ?_⟩
  · exact ((per_class_metrics_in_unit_interval (completedOf c4rows)
      "task").2.2 (by decide)).1
  · exact ((per_class_metrics_in_unit_interval (completedOf c4rows)
      "task").2.2 (by decide)).2.1

/-! ## C7: comparator determinism and delta antisymmetry -/

/-- A history record for version "a" whose metric values are all floats
at most 1 except nothing; its average latency is 0.5 ms. -/
def rec1 : HistoryRecord :=
  { run_id := some "r1", timestamp := some "2024-01-01T00:00:00",
    prompt_version := some "a",
    total_tests := some 4, completed_tests := some 4,
    completion_rate := some 1,
    entity_type_accuracy := some (1/2),
    title_keyword_overlap_avg := some (1/2),
    start_time_presence_accuracy := some 1,
    start_hour_accuracy := some (1/2),
    avg_confidence := some (1/2),
    expected_calibration_error := some (1/10),
    avg_latency_ms := some (1/2), p95_latency_ms := some 1 }

/-- A history record for version "b" identical to `rec1` except for an
average latency of 200 ms (greater than 1, so the comparator's percentage
branch disagrees between the two orientations). -/
def rec2 : HistoryRecord :=
  { run_id := some "r2", timestamp := some "2024-01-02T00:00:00",
    prompt_version := some "b",
    total_tests := some 4, completed_tests := some 4,
    completion_rate := some 1,
    entity_type_accuracy := some (1/2),
    title_keyword_overlap_avg := some (1/2),
    start_time_presence_accuracy := some 1,
    start_hour_accuracy := some (1/2),
    avg_confidence := some (1/2),
    expected_calibration_error := some (1/10),
    avg_latency_ms := some 200, p95_latency_ms := some 1 }

/-- Counterexample to C7: with latencies 0.5 ms (version "a") and 200 ms
(version "b"), the `avg_latency_ms` change of `compare("a","b")` is
(200 - 0.5) x 100 = 19950 (the `val1 <= 1` percentage branch), while
`compare("b","a")` computes 0.5 - 200 = -399/2 in the native branch: the two
are not exact negations, so the percentage display scaling does leak into
the computed delta. -/
theorem compare_change_not_exact_negation :
    compare_prompt_versions "a" "b" [rec1, rec2] =
      .ok [("entity_type_accuracy", 0, .unchanged),
           ("title_keyword_overlap_avg", 0, .unchanged),
           ("start_hour_accuracy", 0, .unchanged),
           ("expected_calibration_error", 0, .unchanged),
           ("avg_latency_ms", 19950, .regressed)] ∧
    compare_prompt_versions "b" "a" [rec1, rec2] =
      .ok [("entity_type_accuracy", 0, .unchanged),
           ("title_keyword_overlap_avg", 0, .unchanged),
           ("start_hour_accuracy", 0, .unchanged),
           ("expected_calibration_error", 0, .unchanged),
           ("avg_latency_ms", -(399/2), .improved)] ∧
    ¬ ((19950 : ℚ) = -(-(399/2))) := by
  refine ⟨rfl, rfl, by norm_num⟩

/-- Two optional metric values on the same side of the comparator's
percentage-display branch: both present (floats) and both at most 1, or
both present and both above 1. -/
def sameSide (a b : Option ℚ) : Prop :=
  ∃ x y, a = some x ∧ b = some y ∧ (x ≤ 1 ↔ y ≤ 1)

/-- Helper: on same-side values, the two orientations of one comparison row
succeed with changes that are exact negations. -/
lemma compareMetric_antisym (a b : Option ℚ) (hib : Bool)
    (h : sameSide a b) :
    ∃ c v c2 v2, compareMetric a b hib = .ok (c, v) ∧
      compareMetric b a hib = .ok (c2, v2) ∧ c2 = -c := by
  obtain ⟨x, y, rfl, rfl, hiff⟩ := h
  by_cases hx : x ≤ 1
  · have hy : y ≤ 1 := hiff.mp hx
    exact ⟨(y - x) * 100, verdictOf hib ((y - x) * 100),
      (x - y) * 100, verdictOf hib ((x - y) * 100),
      by simp [compareMetric, hx], by simp [compareMetric, hy], by ring⟩
  · have hy : ¬ y ≤ 1 := fun hh => hx (hiff.mpr hh)
    exact ⟨y - x, verdictOf hib (y - x), x - y, verdictOf hib (x - y),
      by simp [compareMetric, hx], by simp [compareMetric, hy], by ring⟩

/-- The out-of-range default for indexing into a comparison result. -/
def entryGetDefault : String × ℚ × Verdict := ("", 0, .unchanged)

/-- The out-of-range default for indexing into the metric list. -/
def metricGetDefault : String × (HistoryRecord → Option ℚ) × Bool :=
  ("", fun _ => none, true)

/-- Helper: on present (non-`None`) values one comparison row always
succeeds. -/
lemma compareMetric_ok (x y : ℚ) (hib : Bool) :
    ∃ c v, compareMetric (some x) (some y) hib = .ok (c, v) := by
  rcases le_or_lt x 1 with hx | hx
  · exact ⟨(y - x) * 100, verdictOf hib ((y - x) * 100),
      by simp [compareMetric, hx]⟩
  · exact ⟨y - x, verdictOf hib (y - x),
      by simp [compareMetric, not_le.mpr hx]⟩

/-- Helper: when every selected value is present, both orientations of the
comparison loop succeed with aligned keys, and at each position whose two
values are on the same side of the branch the changes are exact
negations — regardless of the other positions. -/
lemma compareRows_antisym
    (ms : List (String × (HistoryRecord → Option ℚ) × Bool))
    (l1 l2 : HistoryRecord)
    (hp : ∀ m ∈ ms, (m.2.1 l1).isSome ∧ (m.2.1 l2).isSome) :
    ∃ r12 r21 : List (String × ℚ × Verdict),
      compareRows l1 l2 ms = .ok r12 ∧
      compareRows l2 l1 ms = .ok r21 ∧
      r12.map (fun e => e.1) = ms.map (fun m => m.1) ∧
      r21.map (fun e => e.1) = ms.map (fun m => m.1) ∧
      ∀ i, i < ms.length →
        sameSide ((ms.getD i metricGetDefault).2.1 l1)
          ((ms.getD i metricGetDefault).2.1 l2) →
        (r21.getD i entryGetDefault).2.1
          = -(r12.getD i entryGetDefault).2.1 := by
  induction ms with
  | nil =>
    exact ⟨[], [], rfl, rfl, rfl, rfl, fun i hi => absurd hi (by simp)⟩
  | cons m t ih =>
    obtain ⟨hm1, hm2⟩ := hp m (List.mem_cons_self m t)
    obtain ⟨x, hx⟩ := Option.isSome_iff_exists.mp hm1
    obtain ⟨y, hy⟩ := Option.isSome_iff_exists.mp hm2
    obtain ⟨c, v, hcv⟩ := compareMetric_ok x y m.2.2
    obtain ⟨c2, v2, hcv2⟩ := compareMetric_ok y x m.2.2
    obtain ⟨r12, r21, ht12, ht21, hk12, hk21, hneg⟩ :=
      ih (fun z hz => hp z (List.mem_cons_of_mem m hz))
    refine ⟨(m.1, c, v) :: r12, (m.1, c2, v2) :: r21, ?_, ?_, ?_, ?_, ?_⟩
    · simp only [compareRows, hx, hy, hcv, ht12]
    · simp only [compareRows, hx, hy, hcv2, ht21]
    · simp only [List.map_cons, hk12]
    · simp only [List.map_cons, hk21]
    · intro i hi hss
      cases i with
      | zero =>
        simp only [List.getD_cons_zero] at hss ⊢
        obtain ⟨c0, v0, c0', v0', h0, h0', hneg0⟩ :=
          compareMetric_antisym (m.2.1 l1) (m.2.1 l2) m.2.2 hss
        rw [hx, hy] at h0 h0'
        have e1 : (Except.ok (c, v) : Except String (ℚ × Verdict))
            = .ok (c0, v0) := hcv.symm.trans h0
        have e2 : (Except.ok (c2, v2) : Except String (ℚ × Verdict))
            = .ok (c0', v0') := hcv2.symm.trans h0'
        simp only [Except.ok.injEq, Prod.mk.injEq] at e1 e2
        rw [e2.1, e1.1]
        exact hneg0
      | succ j =>
        simp only [List.getD_cons_succ] at hss ⊢
        exact hneg j (by simpa using hi) hss

/-- C7 (amended): the comparator is a pure function of the history (repeat
invocations agree), and — whenever both filter sets are nonempty and every
selected value is present, so that both comparisons complete — for each
individual compared metric whose two selected values lie on the same side
of the percentage-display branch (`sameSide`), the change computed by
`compare(v1,v2)` is the exact negation of the one computed by
`compare(v2,v1)`, regardless of whether other metrics straddle the branch.
(A straddling metric's own changes are not negations, see the
counterexample.) -/
theorem compare_versions_deterministic_antisym (v1 v2 : String)
    (history : List HistoryRecord)
    (h1 : history.filter (fun h => h.prompt_version = some v1) ≠ [])
    (h2 : history.filter (fun h => h.prompt_version = some v2) ≠ [])
    (hpresent : ∀ m ∈ metrics_to_compare,
      (m.2.1 (latestFor history v1)).isSome ∧
      (m.2.1 (latestFor history v2)).isSome) :
    compare_prompt_versions v1 v2 history
      = compare_prompt_versions v1 v2 history ∧
    ∃ r12 r21 : List (String × ℚ × Verdict),
      compare_prompt_versions v1 v2 history = .ok r12 ∧
      compare_prompt_versions v2 v1 history = .ok r21 ∧
      r12.map (fun e => e.1) = metrics_to_compare.map (fun m => m.1) ∧
      r21.map (fun e => e.1) = metrics_to_compare.map (fun m => m.1) ∧
      ∀ i, i < metrics_to_compare.length →
        sameSide
          ((metrics_to_compare.getD i metricGetDefault).2.1
            (latestFor history v1))
          ((metrics_to_compare.getD i metricGetDefault).2.1
            (latestFor history v2)) →
        (r21.getD i entryGetDefault).2.1
          = -(r12.getD i entryGetDefault).2.1 := by
  refine ⟨rfl, ?_⟩
  obtain ⟨r12, r21, h12, h21, hk12, hk21, hneg⟩ :=
    compareRows_antisym metrics_to_compare (latestFor history v1)
      (latestFor history v2) hpresent
  refine ⟨r12, r21, ?_, ?_, hk12, hk21, hneg⟩
  · simp only [compare_prompt_versions, if_neg h1, if_neg h2]
    exact h12
  · simp only [compare_prompt_versions, if_neg h2, if_neg h1]
    exact h21

/-- Witness for C7 (amended) on the concrete mixed-branch history
[rec1, rec2] of the counterexample: every value is present, so both
comparisons succeed and the same-side metrics negate even though
`avg_latency_ms` straddles the branch. -/
theorem compare_versions_deterministic_antisym_witness :
    ([rec1, rec2].filter (fun h => h.prompt_version = some "a") ≠ []) ∧
    ([rec1, rec2].filter (fun h => h.prompt_version = some "b") ≠ []) ∧
    (∀ m ∈ metrics_to_compare,
      (m.2.1 (latestFor [rec1, rec2] "a")).isSome ∧
      (m.2.1 (latestFor [rec1, rec2] "b")).isSome) ∧
    (∃ r12 r21 : List (String × ℚ × Verdict),
      compare_prompt_versions "a" "b" [rec1, rec2] = .ok r12 ∧
      compare_prompt_versions "b" "a" [rec1, rec2] = .ok r21 ∧
      r12.map (fun e => e.1) = metrics_to_compare.map (fun m => m.1) ∧
      r21.map (fun e => e.1) = metrics_to_compare.map (fun m => m.1) ∧
      ∀ i, i < metrics_to_compare.length →
        sameSide
          ((metrics_to_compare.getD i metricGetDefault).2.1
            (latestFor [rec1, rec2] "a"))
          ((metrics_to_compare.getD i metricGetDefault).2.1
            (latestFor [rec1, rec2] "b")) →
        (r21.getD i entryGetDefault).2.1
          = -(r12.getD i entryGetDefault).2.1) := by
  exact ⟨by decide, by decide, by decide,
    (compare_versions_deterministic_antisym "a" "b" [rec1, rec2]
      (by decide) (by decide) (by decide)).2⟩

/-- Witness for C9: a negative confidence lands in the first bin, a
confidence above 1 in the last, and on the scenario rows the four counts
sum to the number of completed rows. -/
theorem confidence_bins_partition_witness :
    ((-1 : ℚ) < 0) ∧ binIndex (-1) = 0 ∧
    ((9 : ℚ)/10 ≤ 3/2) ∧ binIndex (3/2) = 3 ∧
    binCount (completedOf c4rows) 0 + binCount (completedOf c4rows) 1 +
      binCount (completedOf c4rows) 2 + binCount (completedOf c4rows) 3
      = (completedOf c4rows).length := by
  refine ⟨by norm_num, confidence_bins_partition.2.1 (-1) (by norm_num),
    by norm_num, confidence_bins_partition.2.2.1 (3/2) (by norm_num),
    confidence_bins_partition.1 (completedOf c4rows)⟩
